import Mathlib

/-!
Verification development for the mailroom collector: a notification-driven
batching agent that dequeues token rows from PostgreSQL (advancing a cursor
atomically), signs each row's secret with HMAC-SHA-256, and emits
comma-separated batch lines on standard output.

The definitions below are a shallow embedding of the C sources:
  - `src/db.c`       : the dequeue SQL statement (`QUERY`), the row shaping in
                       `db_dequeue`, and `construct_signature_data`;
  - `base64.c`       : `base64_urlencode`;
  - `main.c`         : `parse_env_int`, `is_valid_hmac_keyhex`, `hex_to_bytes`,
                       startup validation, and the batching event loop.
HMAC-SHA-256 itself is OpenSSL; it is kept abstract as an oracle
`mac : List Nat → Option (List Nat)` (hmac_sign may fail), standing for
HMAC-SHA-256 under the process-wide key.
-/

namespace Mailroom

/-! ## Data model: rows of the dequeue result set

The dequeue query yields columns (action, email, login, secret, code).
`secret` arrives bytea-escaped; `PQunescapeBytea` either fails (`none`) or
yields the raw bytes. -/

structure Row where
  action : String
  email : String
  login : String
  secret : Option (List Nat)
  code : String
deriving Repr, DecidableEq

/-! ## construct_signature_data (db.c)

The C builds "/activate" (9 bytes) ++ secret (32 bytes, memcpy of 32) for
activation, and "/recover" (8 bytes) ++ secret (32) ++ code (memcpy of exactly
5 bytes from the code buffer) for password_recovery; any other action leaves
the buffer empty and returns length 0. The 5-byte memcpy is modelled as the
first 5 bytes of the code string. -/

def strBytes (s : String) : List Nat := s.data.map Char.toNat

def construct_signature_data (action : String) (secret : List Nat)
    (code : String) : List Nat :=
  if action = "activation" then
    strBytes "/activate" ++ secret
  else if action = "password_recovery" then
    strBytes "/recover" ++ secret ++ (strBytes code).take 5
  else
    []

/-! ## base64_urlencode (base64.c)

OpenSSL's BIO base64 produces the standard padded encoding; the C then copies
it into `out` replacing `+` with `-` and `/` with `_`, stopping at the first
`=` padding character or when the output buffer (minus the terminator) is
full. It fails on empty input, a zero-sized buffer, or a buffer smaller than
the padded encoding plus terminator. -/

def b64Alphabet : List Char :=
  "ABCDEFGHIJKLMNOPQRSTUVWXYZabcdefghijklmnopqrstuvwxyz0123456789+/".data

def b64Char (n : Nat) : Char := b64Alphabet.getD n 'A'

def base64Pad : List Nat → List Char
  | [] => []
  | [b1] => [b64Char (b1 / 4), b64Char (b1 % 4 * 16), '=', '=']
  | [b1, b2] =>
      [b64Char (b1 / 4), b64Char (b1 % 4 * 16 + b2 / 16), b64Char (b2 % 16 * 4), '=']
  | b1 :: b2 :: b3 :: rest =>
      b64Char (b1 / 4) :: b64Char (b1 % 4 * 16 + b2 / 16) ::
      b64Char (b2 % 16 * 4 + b3 / 64) :: b64Char (b3 % 64) :: base64Pad rest

def urlSafeChar (c : Char) : Char :=
  if c = '+' then '-' else if c = '/' then '_' else c

def base64_urlencode (outSize : Nat) (data : List Nat) : Option String :=
  if data.isEmpty ∨ outSize = 0 then none
  else
    let required := (data.length + 2) / 3 * 4
    if required + 1 > outSize then none
    else
      some ⟨(((base64Pad data).takeWhile (fun c => c ≠ '=')).map urlSafeChar).take
              (outSize - 1)⟩

/-! ## Row shaping inside db_dequeue (db.c)

For each result row, db_dequeue:
  1. unescapes the secret; on failure or length ≠ 32 skips the row (nothing
     printed for it);
  2. prints the action code (`printf("%d", 1/2/0)`), then `,email,login,`;
  3. constructs the signature data and HMAC-signs it; on failure skips the
     rest of the row (the already-printed head remains);
  4. base64url-encodes secret ++ hmac (buffer size 89); on failure skips the
     rest of the row;
  5. prints `encoded,code` and, when the row is not the last of the result
     set, a separating comma.
After the loop one newline is printed (also when every row was skipped), and
only when the result set was empty does db_dequeue return before printing
anything. -/

def actionCodeStr (action : String) : String :=
  if action = "activation" then "1"
  else if action = "password_recovery" then "2"
  else "0"

def rowFragment (mac : List Nat → Option (List Nat)) (isLast : Bool)
    (r : Row) : String :=
  match r.secret with
  | none => ""
  | some s =>
    if s.length ≠ 32 then ""
    else
      let head := actionCodeStr r.action ++ "," ++ r.email ++ "," ++ r.login ++ ","
      match mac (construct_signature_data r.action s r.code) with
      | none => head
      | some h =>
        match base64_urlencode 89 (s ++ h) with
        | none => head
        | some enc =>
            head ++ enc ++ "," ++ r.code ++ (if isLast then "" else ",")

def dequeueStdout (mac : List Nat → Option (List Nat)) (rows : List Row) :
    String :=
  if rows.isEmpty then ""
  else
    String.join (rows.enum.map
      (fun ir => rowFragment mac (ir.1 = rows.length - 1) ir.2)) ++ "\n"

/-- Observable behaviour of db_dequeue on a successfully executed query:
the emitted standard-output text and the return value (`PQntuples`). -/
def db_dequeue_emit (mac : List Nat → Option (List Nat)) (rows : List Row) :
    String × Int :=
  (dequeueStdout mac rows, (rows.length : Int))

/-! ## The dequeue query (QUERY in db.c)

The statement is one CTE pipeline executed as a single transaction:

  token_data: SELECT ... FROM jobs
              JOIN tokens t ON t.id > jobs.last_seq
                            AND t.expires_at > EXTRACT(EPOCH FROM NOW())
                            AND t.consumed_at IS NULL
                            AND t.action IN ('activation','password_recovery')
              JOIN accounts a ON a.id = t.account
                            AND ((t.action = 'activation' AND a.status = 'provisioned')
                              OR (t.action = 'password_recovery' AND a.status = 'active'))
              WHERE jobs.job_type = $1 ORDER BY id ASC LIMIT $2
  updated_jobs: UPDATE jobs SET last_seq = (SELECT MAX(id) FROM token_data)
                WHERE job_type = $1 AND EXISTS (SELECT 1 FROM token_data)
  final:       SELECT action, email, login, secret, code FROM token_data

The jobs row for the given job_type is modelled by its `last_seq` value
(the cursor); `consumed_at IS NULL` by a boolean; account ids are primary
keys, so the accounts join is a `find?`. -/

structure Account where
  id : Nat
  status : String
  email : String
  login : String
deriving Repr, DecidableEq

structure Token where
  id : Nat
  account : Nat
  action : String
  secret : List Nat
  code : String
  expiresAt : Int
  consumed : Bool
deriving Repr, DecidableEq

def eligibleRow (now : Int) (lastSeq : Nat) (t : Token) (a : Account) : Bool :=
  decide (t.id > lastSeq) && decide (t.expiresAt > now) && !t.consumed &&
  (t.action = "activation" || t.action = "password_recovery") &&
  ((t.action = "activation" && a.status = "provisioned") ||
   (t.action = "password_recovery" && a.status = "active"))

/-- ORDER BY id ASC, modelled by insertion sort on the token id. -/
def insertById (x : Token × Account) :
    List (Token × Account) → List (Token × Account)
  | [] => [x]
  | y :: ys => if x.1.id ≤ y.1.id then x :: y :: ys else y :: insertById x ys

def sortById (l : List (Token × Account)) : List (Token × Account) :=
  l.foldr insertById []

/-- The token_data CTE: join tokens with their account, filter eligibility,
order by id ascending, and keep at most `limit` rows. -/
def tokenData (tokens : List Token) (accounts : List Account) (now : Int)
    (lastSeq : Nat) (limit : Nat) : List (Token × Account) :=
  ((sortById ((tokens.filterMap
      (fun t => (accounts.find? (fun a => a.id = t.account)).map (fun a => (t, a))))
    |>.filter (fun ta => eligibleRow now lastSeq ta.1 ta.2))).take limit)

/-- SELECT MAX(id) FROM token_data. -/
def maxId (rows : List (Token × Account)) : Nat :=
  rows.foldl (fun m ta => Nat.max m ta.1.id) 0

/-- The updated_jobs CTE: advance last_seq to MAX(id) of the selected set,
only when the set is non-empty. -/
def advanceCursor (lastSeq : Nat) (rows : List (Token × Account)) : Nat :=
  if rows.isEmpty then lastSeq else maxId rows

/-- Projection of a token_data row onto the five emitted columns. -/
def toRow (ta : Token × Account) : Row :=
  { action := ta.1.action, email := ta.2.email, login := ta.2.login,
    secret := some ta.1.secret, code := ta.1.code }

/-! ## Sequences of successful dequeues

Each successful dequeue runs against the token and account tables as they
stand at that moment (the environment may have inserted rows in between),
with the cursor threading through: the agent caches nothing locally. -/

structure DequeueEnv where
  tokens : List Token
  accounts : List Account
  now : Int
  limit : Nat
deriving Repr

def runDequeues (lastSeq : Nat) : List DequeueEnv → List (List (Token × Account))
  | [] => []
  | e :: rest =>
      let rows := tokenData e.tokens e.accounts e.now lastSeq e.limit
      rows :: runDequeues (advanceCursor lastSeq rows) rest

/-! ## parse_env_int and startup validation (main.c)

parse_env_int uses strtol base 10: leading whitespace, an optional sign, then
digits; endptr is left at the first non-digit (at the start of the string when
no digits were consumed). ERANGE clamps to LONG_MIN/LONG_MAX. parse_env_int
falls back to the default on ERANGE, on an empty parse, on trailing
characters, or when the value is outside [INT_MIN, INT_MAX]; otherwise it
returns the parsed value, whatever its sign. -/

def LONG_MAX : Int := 2 ^ 63 - 1
def LONG_MIN : Int := -(2 ^ 63)
def INT_MAX : Int := 2 ^ 31 - 1
def INT_MIN : Int := -(2 ^ 31)

def isSpaceChar (c : Char) : Bool :=
  c = ' ' || c = '\t' || c = '\n' || c = '\x0b' || c = '\x0c' || c = '\r'

structure StrtolRes where
  value : Int
  erange : Bool
  consumed : Bool
  rest : List Char
deriving Repr, DecidableEq

def decimalVal (digits : List Char) : Nat :=
  digits.foldl (fun acc c => acc * 10 + (c.toNat - '0'.toNat)) 0

/-- The digit-scanning phase of strtol: `s` is the input after whitespace
and sign, `orig` the original pointer (endptr is left there when no digit is
consumed). -/
def strtolDigits (sign : Bool) (orig s : List Char) : StrtolRes :=
  let digits := s.takeWhile Char.isDigit
  let rest := s.dropWhile Char.isDigit
  if digits.isEmpty then
    { value := 0, erange := false, consumed := false, rest := orig }
  else
    let v : Int := if sign then -(decimalVal digits : Int) else (decimalVal digits : Int)
    if v > LONG_MAX then { value := LONG_MAX, erange := true, consumed := true, rest }
    else if v < LONG_MIN then { value := LONG_MIN, erange := true, consumed := true, rest }
    else { value := v, erange := false, consumed := true, rest }

def strtol10 (s : List Char) : StrtolRes :=
  match s.dropWhile isSpaceChar with
  | [] => strtolDigits false s []
  | c :: rest =>
      if c = '-' then strtolDigits true s rest
      else if c = '+' then strtolDigits false s rest
      else strtolDigits false s (c :: rest)

def parse_env_int (val : Option String) (defaultVal : Int) : Int :=
  match val with
  | none => defaultVal
  | some v =>
    let r := strtol10 v.data
    if r.erange then defaultVal
    else if ¬r.consumed ∨ r.rest ≠ [] ∨ r.value < INT_MIN ∨ r.value > INT_MAX then
      defaultVal
    else r.value

def isHexDigitChar (c : Char) : Bool :=
  c.isDigit || ('a' ≤ c && c ≤ 'f') || ('A' ≤ c && c ≤ 'F')

def is_valid_hmac_keyhex (key : String) : Bool :=
  key.length = 64 && key.data.all isHexDigitChar

def hexDigitVal (c : Char) : Nat :=
  if c.isDigit then c.toNat - '0'.toNat
  else if 'a' ≤ c && c ≤ 'f' then c.toNat - 'a'.toNat + 10
  else c.toNat - 'A'.toNat + 10

/-- hex_to_bytes: fails (returns length 0 in C, `none` here) on an odd-length
string or a non-hex character; otherwise decodes pairs of hex digits. -/
def hex_to_bytes : List Char → Option (List Nat)
  | [] => some []
  | [_] => none
  | c1 :: c2 :: rest =>
      if isHexDigitChar c1 && isHexDigitChar c2 then
        (hex_to_bytes rest).map (fun bs => (hexDigitVal c1 * 16 + hexDigitVal c2) :: bs)
      else none

/-- Environment visible to main at startup, plus the hmac_init outcome. -/
structure Env where
  databaseUrl : Option String
  secretKey : Option String
  dbChannelName : Option String
  dbQueueName : Option String
  batchLimitEnv : Option String
  batchTimeoutEnv : Option String
  hmacInitOK : Bool
deriving Repr

structure Config where
  conninfo : String
  channelName : String
  queueName : String
  batchLimit : Int
  timeoutMs : Int
deriving Repr, DecidableEq

/-- Startup of main (part_000 revision): `.error code` is a `return code`
before the loop, `.ok cfg` reaches the batching loop. EXIT_FAILURE = 1. -/
def mainStartup (env : Env) : Except Nat Config :=
  match env.databaseUrl with
  | none => .error 1
  | some conninfo =>
    match env.secretKey with
    | none => .error 1
    | some keyhex =>
      if ¬ is_valid_hmac_keyhex keyhex then .error 1
      else
        match hex_to_bytes keyhex.data with
        | none => .error 1
        | some key =>
          if key.isEmpty then .error 1
          else
            let channel := env.dbChannelName.getD "token_insert"
            let queue := env.dbQueueName.getD "user_action_queue"
            let batchLimit := parse_env_int env.batchLimitEnv 10
            let timeoutMs := parse_env_int env.batchTimeoutEnv 5000
            if ¬ env.hmacInitOK then .error 1
            else .ok { conninfo, channelName := channel, queueName := queue,
                       batchLimit, timeoutMs }

/-! ## The batching event loop (main, part_000 revision)

State carried across iterations: the `running` flag (cleared by the signal
handler), the dispatch flag `ready` (-1 forces the reconnect branch, 1 the
flush branch), the notification counter `seen`, the batch-start timestamp
`start`, and — on the database side — the queue cursor plus the ghost list of
emitted batches. Everything the environment decides in one iteration
(connection status, connect success, dequeue outcomes, pending notifications,
select result, clock readings, table contents) comes in through `Iter`. -/

/-- db_dequeue's error classification: `ok` means the query executed
(PGRES_TUPLES_OK); `transient` is a failed execution (returns -1, no commit);
`terminal` is a committed query whose result set misses columns
(returns -2). -/
inductive DequeueOutcome
  | ok
  | transient
  | terminal
deriving Repr, DecidableEq

inductive SelectOutcome
  /-- select < 0 with errno == EINTR and running now false: break. -/
  | eintrStop
  /-- select < 0 with errno == EINTR, still running: continue. -/
  | eintrCont
  /-- select < 0 with another errno: break. -/
  | fail
  /-- select == 0. -/
  | timeout
  /-- select > 0 but FD_ISSET false: continue. -/
  | readyNotSet
  /-- socket readable; the argument is true when the PQconsumeInput drain
  loop gave up (bad connection or three failures) and set ready = -1. -/
  | readable (consumeFail : Bool)
deriving Repr, DecidableEq

structure LoopState where
  running : Bool
  ready : Int
  seen : Nat
  start : Int
  cursor : Nat
  batches : List (List (Token × Account))
deriving Repr, DecidableEq

structure Params where
  batchLimit : Int
  timeoutMs : Int
deriving Repr, DecidableEq

structure Iter where
  /-- A signal arrived since the last loop-condition check. -/
  signalBefore : Bool
  /-- PQstatus(conn) == CONNECTION_OK at the top-of-loop check. -/
  statusOK : Bool
  /-- db_connect succeeded (reconnect branch only). -/
  connectOK : Bool
  /-- Outcomes for the successive dequeues of the startup/reconnect drain;
  the oracle supplies finitely many, after which the run is cut off. -/
  drainOutcomes : List DequeueOutcome
  /-- Outcome for the flush dequeue. -/
  flushOutcome : DequeueOutcome
  /-- Token/account tables and EPOCH(NOW()) as seen by this iteration. -/
  tokens : List Token
  accounts : List Account
  now : Int
  /-- Number of notifications PQnotifies hands over this iteration. -/
  notifications : Nat
  /-- clock_gettime readings: at the first notification, before select,
  and at a select timeout. -/
  now1 : Int
  now2 : Int
  now3 : Int
  selectOutcome : SelectOutcome
deriving Repr

/-- One call of db_dequeue at the loop level: the new cursor, the emitted
batch (when the query ran and returned at least one row), and the return
value. On `terminal` the statement itself committed — the cursor advanced —
but the rows are not emitted. -/
def dequeueStep (tokens : List Token) (accounts : List Account) (now : Int)
    (cursor : Nat) (limit : Nat) (o : DequeueOutcome) :
    Nat × Option (List (Token × Account)) × Int :=
  match o with
  | .transient => (cursor, none, -1)
  | .terminal =>
      let rows := tokenData tokens accounts now cursor limit
      (advanceCursor cursor rows, none, -2)
  | .ok =>
      let rows := tokenData tokens accounts now cursor limit
      (advanceCursor cursor rows, if rows.isEmpty then none else some rows,
       (rows.length : Int))

inductive Step
  | next (s : LoopState)
  | exit (code : Nat)
  /-- The drain oracle ran out: the run is cut off, no verdict. -/
  | stuck (s : LoopState)
deriving Repr, DecidableEq

inductive DrainRes
  | done (cursor : Nat) (batches : List (List (Token × Account))) (result : Int)
  | stuck (cursor : Nat) (batches : List (List (Token × Account)))
deriving Repr, DecidableEq

/-- `while (running && (result = db_dequeue(conn, queue, batch_limit)) == batch_limit);`
followed by `if (result < -1) return exit_code(conn, EXIT_FAILURE);`.
The signal flag is not re-sampled inside the drain. A negative configured
batch_limit is passed to SQL LIMIT; here it dequeues with limit 0. -/
def drainLoop (tokens : List Token) (accounts : List Account) (now : Int)
    (batchLimit : Int) :
    List DequeueOutcome → Nat → List (List (Token × Account)) → DrainRes
  | [], cursor, acc => .stuck cursor acc
  | o :: rest, cursor, acc =>
      let step := dequeueStep tokens accounts now cursor batchLimit.toNat o
      let acc' := acc ++ (match step.2.1 with | some rows => [rows] | none => [])
      if step.2.2 = batchLimit then drainLoop tokens accounts now batchLimit rest step.1 acc'
      else .done step.1 acc' step.2.2

/-- The branch condition `if (ready < 0 || PQstatus(conn) != CONNECTION_OK)`
that sends the loop into close-and-reconnect. -/
def needConnect (s : LoopState) (statusOK : Bool) : Bool :=
  decide (s.ready < 0) || !statusOK

/-- The `else if (ready > 0)` flush: dequeue with limit = seen; exit on a
terminal result; then reset counter and dispatch flag. -/
def flushPhase (s : LoopState) (it : Iter) : Step :=
  if s.ready > 0 then
    let step := dequeueStep it.tokens it.accounts it.now s.cursor s.seen it.flushOutcome
    if step.2.2 < -1 then .exit 1
    else .next { s with cursor := step.1,
                        batches := s.batches ++
                          (match step.2.1 with | some rows => [rows] | none => []),
                        seen := 0, ready := 0 }
  else .next s

/-- Notification intake: each pending notification increments seen; the
batch timer starts on the zero-to-one transition. -/
def intakePhase (s : LoopState) (it : Iter) : LoopState :=
  if it.notifications = 0 then s
  else { s with start := if s.seen = 0 then it.now1 else s.start,
                seen := s.seen + it.notifications }

/-- The bounded socket wait and its outcomes. -/
def selectPhase (p : Params) (s : LoopState) (it : Iter) : Step :=
  let _remaining := max 0 (p.timeoutMs - (it.now2 - s.start))
  match it.selectOutcome with
  | .eintrStop => .exit 1
  | .eintrCont => .next s
  | .fail => .exit 1
  | .timeout =>
      let s' := { s with start := it.now3 }
      if s'.seen > 0 then .next { s' with ready := 1 } else .next s'
  | .readyNotSet => .next s
  | .readable consumeFail =>
      if consumeFail then .next { s with ready := -1 }
      else .next s

/-- One iteration of the while-loop body. -/
def iterate (p : Params) (s : LoopState) (it : Iter) : Step :=
  if needConnect s it.statusOK then
    if ¬ it.connectOK then .exit 1
    else
      match drainLoop it.tokens it.accounts it.now p.batchLimit it.drainOutcomes
              s.cursor [] with
      | .stuck c b => .stuck { s with cursor := c, batches := s.batches ++ b }
      | .done c b res =>
          if res < -1 then .exit 1
          else .next { s with cursor := c, batches := s.batches ++ b,
                              seen := 0, ready := 0 }
  else
    match flushPhase s it with
    | .exit c => .exit c
    | .stuck s1 => .stuck s1
    | .next s1 =>
        let s2 := intakePhase s1 it
        if (s2.seen : Int) ≥ p.batchLimit then .next { s2 with ready := 1 }
        else selectPhase p s2 it

inductive RunResult
  | exit (code : Nat)
  | stuck (s : LoopState)
  /-- Inputs exhausted while still running. -/
  | more (s : LoopState)
deriving Repr, DecidableEq

/-- The while-loop: the signal flag is sampled at the loop condition; after
the loop falls through, main returns exit_code(conn, EXIT_FAILURE). -/
def mainLoop (p : Params) : LoopState → List Iter → RunResult
  | s, [] => if s.running then .more s else .exit 1
  | s, it :: rest =>
      let s0 := if it.signalBefore then { s with running := false } else s
      if ¬ s0.running then .exit 1
      else
        match iterate p s0 it with
        | .exit c => .exit c
        | .stuck s' => .stuck s'
        | .next s' => mainLoop p s' rest

/-! ## Health-check startup validation (spec-modelled) -/

structure CollectorEnv where
  healthcheckEnv : Option String
  batchTimeoutEnv : Option String
deriving Repr

structure CollectorConfig where
  healthcheckMs : Int
  timeoutMs : Int
deriving Repr, DecidableEq

/-- Modelled from the spec: the startup validation of the collector revision
that reads the health-check interval. That main.c is missing from the
sources here — only its README documentation (MAILROOM_HEALTHCHECK_INTERVAL,
default 270000 ms) and the db_healthcheck declaration in db.h remain. Per the
spec, startup reads the health-check interval and the batch timeout from the
environment (integer parsing with default fallback as elsewhere) and rejects
the configuration — exiting non-zero without entering the batching loop —
whenever the interval is less than the batch timeout. -/
def collectorStartup (env : CollectorEnv) : Except Nat CollectorConfig :=
  let healthcheckMs := parse_env_int env.healthcheckEnv 270000
  let timeoutMs := parse_env_int env.batchTimeoutEnv 5000
  if healthcheckMs < timeoutMs then .error 1
  else .ok { healthcheckMs, timeoutMs }

/-! ## Concrete fixtures used by counterexamples and witnesses -/

/-- A MAC oracle that always answers 32 zero bytes. -/
def macZeros : List Nat → Option (List Nat) := fun _ => some (List.replicate 32 0)

def rowGood : Row :=
  { action := "activation", email := "a@b", login := "x",
    secret := some (List.replicate 32 0), code := "" }

/-- A row whose secret unescapes to 31 bytes: db_dequeue skips it. -/
def rowShortSecret : Row :=
  { action := "activation", email := "c@d", login := "y",
    secret := some (List.replicate 31 0), code := "" }

/-- A row with an action outside {activation, password_recovery}. -/
def rowOddAction : Row :=
  { action := "email_change", email := "e@f", login := "z",
    secret := some (List.replicate 32 7), code := "90125" }

/-- The integer denoted by an optional minus sign and a decimal digit
string. -/
def signedValue (sign : Bool) (digits : List Char) : Int :=
  if sign then -(decimalVal digits : Int) else (decimalVal digits : Int)

/-- An eligible activation token with the given id. -/
def tokAct (i : Nat) : Token :=
  { id := i, account := 1, action := "activation",
    secret := List.replicate 32 0, code := "", expiresAt := 100,
    consumed := false }

def acctProv : Account :=
  { id := 1, status := "provisioned", email := "a@b", login := "x" }

/-- A quiescent loop state: connected, no pending batch, cursor at 0. -/
def idleState : LoopState :=
  { running := true, ready := 0, seen := 0, start := 0, cursor := 0,
    batches := [] }

/-- A loop state in the flush branch: ready = 1 with two notifications
counted. -/
def flushState : LoopState :=
  { running := true, ready := 1, seen := 2, start := 0, cursor := 0,
    batches := [] }

/-- A default iteration input: healthy connection, nothing pending, the
select wait timing out. -/
def quietIter : Iter :=
  { signalBefore := false, statusOK := true, connectOK := true,
    drainOutcomes := [], flushOutcome := .ok, tokens := [], accounts := [],
    now := 0, notifications := 0, now1 := 0, now2 := 0, now3 := 0,
    selectOutcome := .timeout }

/-- Iteration input for C4's counterexample: the flush dequeue fails
transiently while PQstatus stays CONNECTION_OK. -/
def transientFlushIter : Iter :=
  { quietIter with flushOutcome := .transient }

/-- Iteration input delivering three pending notifications. -/
def threeNotifsIter : Iter :=
  { quietIter with notifications := 3 }

/-- Iteration input for C6's counterexample: three eligible tokens are in
the table when the flush dequeue runs. -/
def threeRowsIter : Iter :=
  { quietIter with tokens := [tokAct 1, tokAct 2, tokAct 3],
                   accounts := [acctProv] }

/-- The loop state after C6's two counterexample iterations: one emitted
batch holding three rows, cursor advanced to 3. -/
def c6FinalState : LoopState :=
  { running := true, ready := 0, seen := 0, start := 0, cursor := 3,
    batches := [[(tokAct 1, acctProv), (tokAct 2, acctProv),
                 (tokAct 3, acctProv)]] }

/-- Iteration input whose only event is a signal that arrived before the
loop condition was re-checked. -/
def signalIter : Iter :=
  { quietIter with signalBefore := true }

/-- A startup environment with a valid key and connection string and a
negative BATCH_LIMIT value. -/
def envNegBatchLimit : Env :=
  { databaseUrl := some "postgres://db", secretKey := some (String.mk (List.replicate 64 'a')),
    dbChannelName := none, dbQueueName := none,
    batchLimitEnv := some "-3", batchTimeoutEnv := some "0",
    hmacInitOK := true }

/-- Dequeue environments for C1's witness: two rounds against a small
table. -/
def dequeueEnv1 : DequeueEnv :=
  { tokens := [tokAct 1, tokAct 2], accounts := [acctProv], now := 0,
    limit := 1 }

def dequeueEnv2 : DequeueEnv :=
  { tokens := [tokAct 1, tokAct 2, tokAct 3], accounts := [acctProv],
    now := 0, limit := 5 }

/-! ## Helper lemmas -/

lemma base64_urlencode_of_length_64 (data : List Nat) (h : data.length = 64) :
    base64_urlencode 89 data =
      some ⟨(((base64Pad data).takeWhile (fun c => c ≠ '=')).map urlSafeChar).take 88⟩ := by
  unfold base64_urlencode
  have hne : ¬ data.isEmpty := by
    cases data with
    | nil => simp at h
    | cons a l => simp
  simp [hne, h]

lemma not_space_of_digit {c : Char} (h : c.isDigit = true) : isSpaceChar c = false := by
  have h0 : c ≠ ' ' := by rintro rfl; exact absurd h (by decide)
  have h1 : c ≠ '\t' := by rintro rfl; exact absurd h (by decide)
  have h2 : c ≠ '\n' := by rintro rfl; exact absurd h (by decide)
  have h3 : c ≠ '\x0b' := by rintro rfl; exact absurd h (by decide)
  have h4 : c ≠ '\x0c' := by rintro rfl; exact absurd h (by decide)
  have h5 : c ≠ '\r' := by rintro rfl; exact absurd h (by decide)
  simp [isSpaceChar, h0, h1, h2, h3, h4, h5]

lemma ne_dash_of_digit {c : Char} (h : c.isDigit = true) : c ≠ '-' := by
  rintro rfl; exact absurd h (by decide)

lemma ne_plus_of_digit {c : Char} (h : c.isDigit = true) : c ≠ '+' := by
  rintro rfl; exact absurd h (by decide)

lemma takeWhile_append_all {α} (p : α → Bool) :
    ∀ l1 l2 : List α, (∀ x ∈ l1, p x = true) →
      (l1 ++ l2).takeWhile p = l1 ++ l2.takeWhile p
  | [], l2, _ => by simp
  | a :: l1, l2, h => by
      have ha : p a = true := h a (by simp)
      simp only [List.cons_append, List.takeWhile_cons, ha, if_true]
      rw [takeWhile_append_all p l1 l2 (fun x hx => h x (by simp [hx]))]

lemma dropWhile_append_all {α} (p : α → Bool) :
    ∀ l1 l2 : List α, (∀ x ∈ l1, p x = true) →
      (l1 ++ l2).dropWhile p = l2.dropWhile p
  | [], l2, _ => by simp
  | a :: l1, l2, h => by
      have ha : p a = true := h a (by simp)
      simp only [List.cons_append, List.dropWhile_cons, ha, if_true]
      exact dropWhile_append_all p l1 l2 (fun x hx => h x (by simp [hx]))

lemma takeWhile_nil_of_head {l : List Char}
    (ht : ∀ c, l.head? = some c → c.isDigit = false) :
    l.takeWhile Char.isDigit = [] := by
  cases l with
  | nil => rfl
  | cons c cs => simp [List.takeWhile_cons, ht c rfl]

lemma dropWhile_self_of_head {l : List Char}
    (ht : ∀ c, l.head? = some c → c.isDigit = false) :
    l.dropWhile Char.isDigit = l := by
  cases l with
  | nil => rfl
  | cons c cs => simp [List.dropWhile_cons, ht c rfl]

lemma strtol10_cons (s : List Char) (c : Char) (rest : List Char)
    (h : s.dropWhile isSpaceChar = c :: rest) :
    strtol10 s =
      if c = '-' then strtolDigits true s rest
      else if c = '+' then strtolDigits false s rest
      else strtolDigits false s (c :: rest) := by
  unfold strtol10
  rw [h]

/-- strtol on an optional minus sign, a non-empty run of decimal digits, and
a tail that does not begin with a digit. -/
lemma strtol10_signed (sign : Bool) (digits tail : List Char)
    (hne : digits ≠ []) (hd : ∀ c ∈ digits, c.isDigit = true)
    (ht : ∀ c, tail.head? = some c → c.isDigit = false) :
    strtol10 ((if sign then ['-'] else []) ++ digits ++ tail) =
      if signedValue sign digits > LONG_MAX then
        { value := LONG_MAX, erange := true, consumed := true, rest := tail }
      else if signedValue sign digits < LONG_MIN then
        { value := LONG_MIN, erange := true, consumed := true, rest := tail }
      else
        { value := signedValue sign digits, erange := false, consumed := true,
          rest := tail } := by
  obtain ⟨c, cs, rfl⟩ : ∃ c cs, digits = c :: cs := by
    cases digits with
    | nil => exact absurd rfl hne
    | cons c cs => exact ⟨c, cs, rfl⟩
  have hc : c.isDigit = true := hd c (by simp)
  have hdig : ∀ orig sg, strtolDigits sg orig ((c :: cs) ++ tail) =
      if signedValue sg (c :: cs) > LONG_MAX then
        { value := LONG_MAX, erange := true, consumed := true, rest := tail }
      else if signedValue sg (c :: cs) < LONG_MIN then
        { value := LONG_MIN, erange := true, consumed := true, rest := tail }
      else
        { value := signedValue sg (c :: cs), erange := false, consumed := true,
          rest := tail } := by
    intro orig sg
    unfold strtolDigits
    rw [takeWhile_append_all Char.isDigit (c :: cs) tail hd,
        takeWhile_nil_of_head ht, List.append_nil,
        dropWhile_append_all Char.isDigit (c :: cs) tail hd,
        dropWhile_self_of_head ht]
    simp only [List.isEmpty_cons, Bool.false_eq_true, if_false, signedValue]
  cases sign with
  | true =>
      have hds : isSpaceChar '-' = false := by decide
      have hif : ((if (true : Bool) then ['-'] else []) : List Char) = ['-'] := rfl
      rw [hif]
      have hws : ((['-'] ++ (c :: cs) ++ tail).dropWhile isSpaceChar) =
          '-' :: ((c :: cs) ++ tail) := by
        simp [List.dropWhile_cons, hds]
      rw [strtol10_cons _ '-' _ hws, if_pos rfl]
      exact hdig _ true
  | false =>
      have hcs : isSpaceChar c = false := not_space_of_digit hc
      have hif : ((if (false : Bool) then ['-'] else []) : List Char) = [] := rfl
      rw [hif]
      have hws : (([] ++ (c :: cs) ++ tail).dropWhile isSpaceChar) =
          c :: (cs ++ tail) := by
        simp [List.dropWhile_cons, hcs]
      rw [strtol10_cons _ c _ hws, if_neg (ne_dash_of_digit hc),
          if_neg (ne_plus_of_digit hc)]
      have : c :: (cs ++ tail) = (c :: cs) ++ tail := rfl
      rw [this]
      exact hdig _ false

/-- Full evaluation of parse_env_int on an optional minus sign, a non-empty
digit run, and a non-digit-leading tail: the parsed value comes back verbatim
exactly when it fits in int range and there is no tail; otherwise the default
wins. -/
lemma parse_env_int_eval (sign : Bool) (digits tail : List Char)
    (hne : digits ≠ []) (hd : ∀ c ∈ digits, c.isDigit = true)
    (ht : ∀ c, tail.head? = some c → c.isDigit = false) (d : Int) :
    parse_env_int (some ((if sign then "-" else "") ++ ⟨digits ++ tail⟩)) d =
      if INT_MIN ≤ signedValue sign digits ∧ signedValue sign digits ≤ INT_MAX ∧
          tail = [] then
        signedValue sign digits
      else d := by
  have hdata : ((if sign then "-" else "") ++ (⟨digits ++ tail⟩ : String)).data =
      (if sign then ['-'] else []) ++ digits ++ tail := by
    cases sign <;> simp [String.data_append, String.mk]
  have hLM : LONG_MAX = 9223372036854775807 := by norm_num [LONG_MAX]
  have hLm : LONG_MIN = -9223372036854775808 := by norm_num [LONG_MIN]
  have hIM : INT_MAX = 2147483647 := by norm_num [INT_MAX]
  have hIm : INT_MIN = -2147483648 := by norm_num [INT_MIN]
  simp only [parse_env_int, hdata, strtol10_signed sign digits tail hne hd ht]
  split_ifs <;> simp_all <;> omega

lemma hex_to_bytes_total :
    ∀ l : List Char, (∀ c ∈ l, isHexDigitChar c = true) → l.length % 2 = 0 →
      ∃ bs, hex_to_bytes l = some bs ∧ bs.length = l.length / 2
  | [], _, _ => ⟨[], rfl, rfl⟩
  | [c], _, h => by simp at h
  | c1 :: c2 :: rest, hall, hlen => by
      have h1 : isHexDigitChar c1 = true := hall c1 (by simp)
      have h2 : isHexDigitChar c2 = true := hall c2 (by simp)
      obtain ⟨bs, hbs, hl⟩ := hex_to_bytes_total rest
        (fun c hc => hall c (by simp [hc]))
        (by simp only [List.length_cons] at hlen ⊢; omega)
      refine ⟨(hexDigitVal c1 * 16 + hexDigitVal c2) :: bs, ?_, ?_⟩
      · unfold hex_to_bytes
        simp [h1, h2, hbs]
      · simp only [List.length_cons, hl]
        omega

lemma tokenData_length_le (tokens : List Token) (accounts : List Account)
    (now : Int) (lastSeq : Nat) (limit : Nat) :
    (tokenData tokens accounts now lastSeq limit).length ≤ limit := by
  unfold tokenData
  exact List.length_take_le limit _

/-- Any batch accumulated by the reconnect drain is bounded by the drain's
limit parameter. -/
lemma drainLoop_batches (tokens : List Token) (accounts : List Account)
    (now : Int) (batchLimit : Int) :
    ∀ (outcomes : List DequeueOutcome) (cursor : Nat)
      (acc : List (List (Token × Account))),
      (∀ b ∈ acc, b.length ≤ batchLimit.toNat) →
      (∀ c bs res, drainLoop tokens accounts now batchLimit outcomes cursor acc =
          .done c bs res → ∀ b ∈ bs, b.length ≤ batchLimit.toNat) ∧
      (∀ c bs, drainLoop tokens accounts now batchLimit outcomes cursor acc =
          .stuck c bs → ∀ b ∈ bs, b.length ≤ batchLimit.toNat)
  | [], cursor, acc, hacc => by
      constructor
      · intro c bs res h
        exact absurd h (by unfold drainLoop; intro h; cases h)
      · intro c bs h
        unfold drainLoop at h
        cases h
        exact hacc
  | o :: rest, cursor, acc, hacc => by
      have hacc' : ∀ b ∈ acc ++
          (match (dequeueStep tokens accounts now cursor batchLimit.toNat o).2.1 with
           | some rows => [rows] | none => []),
          b.length ≤ batchLimit.toNat := by
        intro b hb
        rcases List.mem_append.mp hb with hb | hb
        · exact hacc b hb
        · cases o with
          | transient => simp [dequeueStep] at hb
          | terminal => simp [dequeueStep] at hb
          | ok =>
              simp only [dequeueStep] at hb
              by_cases he : (tokenData tokens accounts now cursor
                  batchLimit.toNat).isEmpty
              · simp [he] at hb
              · simp only [he, Bool.false_eq_true, if_false] at hb
                simp only [List.mem_singleton] at hb
                subst hb
                exact tokenData_length_le _ _ _ _ _
      have ih := drainLoop_batches tokens accounts now batchLimit rest
        (dequeueStep tokens accounts now cursor batchLimit.toNat o).1
        (acc ++ _) hacc'
      constructor
      · intro c bs res h
        unfold drainLoop at h
        by_cases hc : (dequeueStep tokens accounts now cursor batchLimit.toNat o).2.2
            = batchLimit
        · rw [if_pos hc] at h
          exact ih.1 c bs res h
        · rw [if_neg hc] at h
          cases h
          exact hacc'
      · intro c bs h
        unfold drainLoop at h
        by_cases hc : (dequeueStep tokens accounts now cursor batchLimit.toNat o).2.2
            = batchLimit
        · rw [if_pos hc] at h
          exact ih.2 c bs h
        · rw [if_neg hc] at h
          cases h

/-- A flush that continues the loop appends at most one batch, bounded by the
notification counter it passed as the limit. -/
lemma flushPhase_next_batches {s : LoopState} {it : Iter} {s1 : LoopState}
    (h : flushPhase s it = .next s1) :
    ∀ b ∈ s1.batches.drop s.batches.length, b.length ≤ s.seen := by
  unfold flushPhase at h
  by_cases hr : s.ready > 0
  · rw [if_pos hr] at h
    cases ho : it.flushOutcome with
    | transient =>
        rw [ho] at h
        simp only [dequeueStep] at h
        norm_num at h
        cases h
        simp only [List.append_nil, List.drop_length]
        intro b hb
        cases hb
    | terminal =>
        rw [ho] at h
        simp only [dequeueStep] at h
        norm_num at h
        exact absurd h (by simp)
    | ok =>
        rw [ho] at h
        simp only [dequeueStep] at h
        have hge : ¬ ((tokenData it.tokens it.accounts it.now s.cursor s.seen).length
            : Int) < -1 := by omega
        rw [if_neg hge] at h
        cases h
        by_cases he : (tokenData it.tokens it.accounts it.now s.cursor s.seen).isEmpty
        · simp only [he, ite_true, List.append_nil, List.drop_length]
          intro b hb
          cases hb
        · simp only [he, Bool.false_eq_true, if_false, List.drop_left]
          intro b hb
          simp only [List.mem_singleton] at hb
          subst hb
          exact tokenData_length_le _ _ _ _ _
  · rw [if_neg hr] at h
    cases h
    simp only [List.drop_length]
    intro b hb
    cases hb

lemma flushPhase_no_stuck {s : LoopState} {it : Iter} {s1 : LoopState}
    (h : flushPhase s it = .stuck s1) : False := by
  unfold flushPhase at h
  dsimp only at h
  split_ifs at h <;> simp at h

lemma intakePhase_batches (s : LoopState) (it : Iter) :
    (intakePhase s it).batches = s.batches := by
  unfold intakePhase
  split <;> rfl

lemma intakePhase_ready (s : LoopState) (it : Iter) :
    (intakePhase s it).ready = s.ready := by
  unfold intakePhase
  split <;> rfl

lemma selectPhase_next_batches {p : Params} {s : LoopState} {it : Iter}
    {s' : LoopState} (h : selectPhase p s it = .next s') :
    s'.batches = s.batches := by
  unfold selectPhase at h
  cases hso : it.selectOutcome <;> rw [hso] at h <;> dsimp only at h
  case eintrStop => exact absurd h (by simp)
  case eintrCont => cases h; rfl
  case fail => exact absurd h (by simp)
  case timeout => split_ifs at h <;> cases h <;> rfl
  case readyNotSet => cases h; rfl
  case readable b => split_ifs at h <;> cases h <;> rfl

lemma selectPhase_no_stuck {p : Params} {s : LoopState} {it : Iter}
    {s' : LoopState} (h : selectPhase p s it = .stuck s') : False := by
  unfold selectPhase at h
  cases hso : it.selectOutcome <;> rw [hso] at h <;> dsimp only at h
  case eintrStop => exact absurd h (by simp)
  case eintrCont => exact absurd h (by simp)
  case fail => exact absurd h (by simp)
  case timeout => split_ifs at h <;> try exact absurd h (by simp)
  case readyNotSet => exact absurd h (by simp)
  case readable b => split_ifs at h <;> try exact absurd h (by simp)

/-- The flush branch only ever exits with EXIT_FAILURE. -/
lemma flushPhase_exit_code {s : LoopState} {it : Iter} {cf : Nat}
    (h : flushPhase s it = .exit cf) : cf = 1 := by
  unfold flushPhase at h
  dsimp only at h
  split_ifs at h
  all_goals first
    | (cases h; rfl)
    | (exact absurd h (by simp))

/-- Every exit the loop body performs carries EXIT_FAILURE. -/
lemma iterate_exit_code {p : Params} {s : LoopState} {it : Iter} {c : Nat}
    (h : iterate p s it = .exit c) : c = 1 := by
  unfold iterate at h
  by_cases hnc : needConnect s it.statusOK = true
  · rw [if_pos hnc] at h
    by_cases hco : it.connectOK = true
    · rw [if_neg (by simp [hco])] at h
      cases hdr : drainLoop it.tokens it.accounts it.now p.batchLimit
          it.drainOutcomes s.cursor [] with
      | done c' b res =>
          rw [hdr] at h
          dsimp only at h
          split_ifs at h
          all_goals first
            | (cases h; rfl)
            | (exact absurd h (by simp))
      | stuck c' b =>
          rw [hdr] at h
          exact absurd h (by simp)
    · rw [if_pos (by simp [hco])] at h
      cases h; rfl
  · rw [if_neg hnc] at h
    rcases hfl : flushPhase s it with s1 | cf | s1 <;> rw [hfl] at h <;>
      dsimp only at h
    · by_cases hbl : ((intakePhase s1 it).seen : Int) ≥ p.batchLimit
      · rw [if_pos hbl] at h
        exact absurd h (by simp)
      · rw [if_neg hbl] at h
        unfold selectPhase at h
        cases hso : it.selectOutcome <;> rw [hso] at h <;> dsimp only at h
        · cases h; rfl
        · exact absurd h (by simp)
        · cases h; rfl
        · split_ifs at h <;> try exact absurd h (by simp)
        · exact absurd h (by simp)
        · split_ifs at h <;> try exact absurd h (by simp)
    · cases h
      exact flushPhase_exit_code hfl
    · exact absurd h (by simp)

lemma mem_insertById {x y : Token × Account} :
    ∀ {l : List (Token × Account)}, y ∈ insertById x l ↔ y = x ∨ y ∈ l
  | [] => by simp [insertById]
  | z :: zs => by
      unfold insertById
      split_ifs
      · simp
      · rw [List.mem_cons, mem_insertById (l := zs)]
        simp
        tauto

lemma pairwise_insertById {x : Token × Account} :
    ∀ {l : List (Token × Account)},
      l.Pairwise (fun a b => a.1.id ≤ b.1.id) →
      (insertById x l).Pairwise (fun a b => a.1.id ≤ b.1.id)
  | [], _ => by simp [insertById]
  | z :: zs, h => by
      rw [List.pairwise_cons] at h
      unfold insertById
      split_ifs with hle
      · refine List.Pairwise.cons ?_ (List.Pairwise.cons h.1 h.2)
        intro b hb
        rcases List.mem_cons.mp hb with rfl | hb
        · exact hle
        · exact le_trans hle (h.1 b hb)
      · refine List.Pairwise.cons ?_ (pairwise_insertById h.2)
        intro b hb
        rcases mem_insertById.mp hb with rfl | hb
        · omega
        · exact h.1 b hb

lemma mem_sortById {y : Token × Account} :
    ∀ {l : List (Token × Account)}, y ∈ sortById l ↔ y ∈ l
  | [] => Iff.rfl
  | a :: l => by
      show y ∈ insertById a (sortById l) ↔ _
      rw [mem_insertById, mem_sortById (l := l)]
      simp

lemma sorted_sortById :
    ∀ l : List (Token × Account),
      (sortById l).Pairwise (fun a b => a.1.id ≤ b.1.id)
  | [] => List.Pairwise.nil
  | a :: l => pairwise_insertById (sorted_sortById l)

lemma mem_tokenData_eligible {r : Token × Account} {tokens : List Token}
    {accounts : List Account} {now : Int} {lastSeq limit : Nat}
    (h : r ∈ tokenData tokens accounts now lastSeq limit) :
    eligibleRow now lastSeq r.1 r.2 = true := by
  unfold tokenData at h
  have h1 := List.mem_of_mem_take h
  rw [mem_sortById] at h1
  exact (List.mem_filter.mp h1).2

lemma mem_tokenData_gt {r : Token × Account} {tokens : List Token}
    {accounts : List Account} {now : Int} {lastSeq limit : Nat}
    (h : r ∈ tokenData tokens accounts now lastSeq limit) :
    lastSeq < r.1.id := by
  have he := mem_tokenData_eligible h
  unfold eligibleRow at he
  simp only [Bool.and_eq_true, decide_eq_true_eq] at he
  exact he.1.1.1.1

lemma tokenData_sorted (tokens : List Token) (accounts : List Account)
    (now : Int) (lastSeq limit : Nat) :
    (tokenData tokens accounts now lastSeq limit).Pairwise
      (fun a b => a.1.id ≤ b.1.id) := by
  unfold tokenData
  exact List.Pairwise.sublist (List.take_sublist _ _) (sorted_sortById _)

lemma le_foldl_max :
    ∀ (rows : List (Token × Account)) (acc : Nat),
      acc ≤ rows.foldl (fun m ta => Nat.max m ta.1.id) acc
  | [], acc => le_refl acc
  | r :: rows, acc =>
      le_trans (Nat.le_max_left acc r.1.id) (le_foldl_max rows _)

lemma mem_le_foldl_max :
    ∀ (rows : List (Token × Account)) (acc : Nat) (r : Token × Account),
      r ∈ rows → r.1.id ≤ rows.foldl (fun m ta => Nat.max m ta.1.id) acc
  | r' :: rows, acc, r, h => by
      rcases List.mem_cons.mp h with rfl | h
      · exact le_trans (Nat.le_max_right acc r.1.id) (le_foldl_max rows _)
      · exact mem_le_foldl_max rows _ r h

lemma foldl_max_acc_or_mem :
    ∀ (rows : List (Token × Account)) (acc : Nat),
      rows.foldl (fun m ta => Nat.max m ta.1.id) acc = acc ∨
      ∃ r ∈ rows, rows.foldl (fun m ta => Nat.max m ta.1.id) acc = r.1.id
  | [], acc => Or.inl rfl
  | r :: rows, acc => by
      rcases foldl_max_acc_or_mem rows (Nat.max acc r.1.id) with h | ⟨r', hr', he⟩
      · rcases Nat.le_total acc r.1.id with h2 | h2
        · exact Or.inr ⟨r, by simp, by rw [List.foldl_cons, h]; exact Nat.max_eq_right h2⟩
        · exact Or.inl (by rw [List.foldl_cons, h]; exact Nat.max_eq_left h2)
      · exact Or.inr ⟨r', by simp [hr'], by rw [List.foldl_cons, he]⟩

lemma mem_le_advanceCursor {rows : List (Token × Account)} {lastSeq : Nat}
    {r : Token × Account} (h : r ∈ rows) :
    r.1.id ≤ advanceCursor lastSeq rows := by
  unfold advanceCursor maxId
  have hne : rows.isEmpty = false := by
    cases rows with
    | nil => cases h
    | cons a l => simp
  rw [hne]
  simp only [Bool.false_eq_true, if_false]
  exact mem_le_foldl_max rows 0 r h

lemma advanceCursor_mem (lastSeq : Nat) {rows : List (Token × Account)}
    (h : rows ≠ []) : ∃ r ∈ rows, advanceCursor lastSeq rows = r.1.id := by
  unfold advanceCursor maxId
  have hne : rows.isEmpty = false := by
    cases rows with
    | nil => exact absurd rfl h
    | cons a l => simp
  rw [hne]
  simp only [Bool.false_eq_true, if_false]
  rcases foldl_max_acc_or_mem rows 0 with h0 | hm
  · cases rows with
    | nil => exact absurd rfl h
    | cons a l =>
        refine ⟨a, by simp, ?_⟩
        have hle := mem_le_foldl_max (a :: l) 0 a (by simp)
        omega
  · exact hm

lemma lastSeq_le_advance_tokenData (tokens : List Token)
    (accounts : List Account) (now : Int) (lastSeq limit : Nat) :
    lastSeq ≤ advanceCursor lastSeq (tokenData tokens accounts now lastSeq limit) := by
  by_cases h : tokenData tokens accounts now lastSeq limit = []
  · rw [h]
    unfold advanceCursor
    simp
  · obtain ⟨r, hr, he⟩ := advanceCursor_mem lastSeq h
    have hgt := mem_tokenData_gt hr
    omega

lemma mem_runDequeues_gt :
    ∀ (envs : List DequeueEnv) (c : Nat) (j : Nat)
      (hj : j < (runDequeues c envs).length) (r' : Token × Account),
      r' ∈ (runDequeues c envs).get ⟨j, hj⟩ → c < r'.1.id
  | [], c, j, hj, r' => by simp [runDequeues] at hj
  | e :: rest, c, 0, hj, r' => fun h => mem_tokenData_gt h
  | e :: rest, c, j + 1, hj, r' => fun h => by
      have hj' : j < (runDequeues (advanceCursor c
          (tokenData e.tokens e.accounts e.now c e.limit)) rest).length := by
        have := hj
        simp only [runDequeues, List.length_cons] at this
        omega
      have h' := mem_runDequeues_gt rest
        (advanceCursor c (tokenData e.tokens e.accounts e.now c e.limit)) j hj' r' h
      have hle := lastSeq_le_advance_tokenData e.tokens e.accounts e.now c e.limit
      omega

lemma runDequeues_cross :
    ∀ (envs : List DequeueEnv) (c : Nat) (i j : Nat)
      (hi : i < (runDequeues c envs).length)
      (hj : j < (runDequeues c envs).length), i < j →
      ∀ r r' : Token × Account, r ∈ (runDequeues c envs).get ⟨i, hi⟩ →
        r' ∈ (runDequeues c envs).get ⟨j, hj⟩ → r.1.id < r'.1.id
  | [], c, i, j, hi, hj => by simp [runDequeues] at hi
  | e :: rest, c, 0, 0, hi, hj => fun hij => by omega
  | e :: rest, c, 0, j + 1, hi, hj => fun hij r r' hr hr' => by
      have hj' : j < (runDequeues (advanceCursor c
          (tokenData e.tokens e.accounts e.now c e.limit)) rest).length := by
        have := hj
        simp only [runDequeues, List.length_cons] at this
        omega
      have h1 : r.1.id ≤ advanceCursor c
          (tokenData e.tokens e.accounts e.now c e.limit) :=
        mem_le_advanceCursor hr
      have h2 := mem_runDequeues_gt rest
        (advanceCursor c (tokenData e.tokens e.accounts e.now c e.limit)) j hj' r' hr'
      omega
  | e :: rest, c, i + 1, 0, hi, hj => fun hij => by omega
  | e :: rest, c, i + 1, j + 1, hi, hj => fun hij r r' hr hr' => by
      have hi' : i < (runDequeues (advanceCursor c
          (tokenData e.tokens e.accounts e.now c e.limit)) rest).length := by
        have := hi
        simp only [runDequeues, List.length_cons] at this
        omega
      have hj' : j < (runDequeues (advanceCursor c
          (tokenData e.tokens e.accounts e.now c e.limit)) rest).length := by
        have := hj
        simp only [runDequeues, List.length_cons] at this
        omega
      exact runDequeues_cross rest
        (advanceCursor c (tokenData e.tokens e.accounts e.now c e.limit))
        i j hi' hj' (by omega) r r' hr hr'

/-! ## Claim theorems -/

/-- Claim C1: for every dequeue against a queue state with cursor c, every
returned row has id greater than c, the rows are ordered ascending by id, at
most `limit` rows are returned, and the same statement sets the cursor to the
maximum id among the returned rows (leaving it unchanged when the set is
empty); consequently, across any sequence of successful dequeues — each run
against the tables as they then stand, with the cursor threading through —
rows of later batches have strictly larger ids, so no row is ever returned
twice. -/
theorem c1_dequeue_cursor_contract :
    (∀ (tokens : List Token) (accounts : List Account) (now : Int)
        (lastSeq limit : Nat),
      (∀ r ∈ tokenData tokens accounts now lastSeq limit, lastSeq < r.1.id) ∧
      (tokenData tokens accounts now lastSeq limit).Pairwise
        (fun a b => a.1.id ≤ b.1.id) ∧
      (tokenData tokens accounts now lastSeq limit).length ≤ limit ∧
      (tokenData tokens accounts now lastSeq limit = [] →
        advanceCursor lastSeq (tokenData tokens accounts now lastSeq limit) =
          lastSeq) ∧
      (tokenData tokens accounts now lastSeq limit ≠ [] →
        (∃ r ∈ tokenData tokens accounts now lastSeq limit,
          advanceCursor lastSeq (tokenData tokens accounts now lastSeq limit) =
            r.1.id) ∧
        ∀ r ∈ tokenData tokens accounts now lastSeq limit,
          r.1.id ≤ advanceCursor lastSeq
            (tokenData tokens accounts now lastSeq limit))) ∧
    (∀ (c : Nat) (envs : List DequeueEnv) (i j : Nat)
        (hi : i < (runDequeues c envs).length)
        (hj : j < (runDequeues c envs).length), i < j →
      ∀ r r' : Token × Account, r ∈ (runDequeues c envs).get ⟨i, hi⟩ →
        r' ∈ (runDequeues c envs).get ⟨j, hj⟩ → r.1.id < r'.1.id) := by
  constructor
  · intro tokens accounts now lastSeq limit
    refine ⟨fun r hr => mem_tokenData_gt hr,
      tokenData_sorted tokens accounts now lastSeq limit,
      tokenData_length_le tokens accounts now lastSeq limit, ?_, ?_⟩
    · intro h
      rw [h]
      unfold advanceCursor
      simp
    · intro h
      exact ⟨advanceCursor_mem lastSeq h, fun r hr => mem_le_advanceCursor hr⟩
  · exact fun c envs i j hi hj hij r r' hr hr' =>
      runDequeues_cross envs c i j hi hj hij r r' hr hr'

/-- Witness for C1 at a concrete table: limit 1 keeps the contract on a
two-token table, and across two successive dequeues the row of the first
batch has a strictly smaller id than a row of the second. -/
theorem c1_witness :
    (∀ r ∈ tokenData [tokAct 2, tokAct 1] [acctProv] 0 0 1, 0 < r.1.id) ∧
    (tokAct 1, acctProv).1.id < (tokAct 2, acctProv).1.id :=
  ⟨(c1_dequeue_cursor_contract.1 [tokAct 2, tokAct 1] [acctProv] 0 0 1).1,
   c1_dequeue_cursor_contract.2 0 [dequeueEnv1, dequeueEnv2] 0 1
     (by decide) (by decide) (by decide) (tokAct 1, acctProv)
     (tokAct 2, acctProv) (by decide) (by decide)⟩

/-- Claim C9: if the dequeue query returns zero rows, db_dequeue returns 0
and writes nothing at all to standard output — no fields and no newline. -/
theorem c9_empty_dequeue_writes_nothing (mac : List Nat → Option (List Nat)) :
    db_dequeue_emit mac [] = ("", 0) := rfl

/-- Claim C3 (code bug): a dequeue of two rows whose second (last) row is
skipped for a 31-byte secret emits the line `1,a@b,x,<token>,,\n`. Counting
comma-separated fields, the line has 6 of them (the skipped row leaves the
separator comma of the previous row dangling, adding an empty sixth field),
and 6 is not 5·N for any N ≥ 1 — contradicting the batch-shape invariant the
claim states for batches with skipped rows. -/
theorem c3_skipped_last_row_breaks_batch_shape :
    (dequeueStdout macZeros [rowGood, rowShortSecret]).data.count ',' + 1 = 6 ∧
    (∀ n : Nat, 1 ≤ n → 5 * n ≠ 6) ∧
    (dequeueStdout macZeros [rowGood, rowShortSecret]).data.getLast? = some '\n' := by
  refine ⟨by decide, ?_, by decide⟩
  intro n _ h
  omega

/-- Claim C7, counterexample: for a dequeued row whose action is neither
`activation` nor `password_recovery`, the constructed signing input is indeed
empty, but the row is NOT skipped: db_dequeue still emits all five fields for
it (action code 0), so it contributes 5 fields (4 commas) to the batch line —
refuting the claim that it contributes no fields. -/
theorem c7_counterexample :
    construct_signature_data rowOddAction.action (List.replicate 32 7)
        rowOddAction.code = [] ∧
    rowFragment macZeros true rowOddAction ≠ "" ∧
    (rowFragment macZeros true rowOddAction).data.count ',' = 4 := by
  refine ⟨by decide, by decide, by decide⟩

/-- Claim C7, amended: for every dequeued row with a valid 32-byte secret
whose action is neither `activation` nor `password_recovery`, the constructed
signing input is empty, but the row is still shaped: db_dequeue emits the
five fields `0,email,login,encoded,code` for it, where the encoded token is
the URL-safe base64 of secret ++ MAC(empty input). (Such rows can only come
from a changed query: the dequeue statement filters actions to the two known
ones.) -/
theorem c7_unknown_action_still_shaped (mac : List Nat → Option (List Nat))
    (r : Row) (s h : List Nat) (hs : r.secret = some s) (hlen : s.length = 32)
    (ha1 : r.action ≠ "activation") (ha2 : r.action ≠ "password_recovery")
    (hm : mac [] = some h) (hh : h.length = 32) (isLast : Bool) :
    construct_signature_data r.action s r.code = [] ∧
    ∃ enc, base64_urlencode 89 (s ++ h) = some enc ∧
      rowFragment mac isLast r =
        "0" ++ "," ++ r.email ++ "," ++ r.login ++ "," ++ enc ++ "," ++ r.code ++
          (if isLast then "" else ",") := by
  have hsig : construct_signature_data r.action s r.code = [] := by
    unfold construct_signature_data
    simp [ha1, ha2]
  have hb64 := base64_urlencode_of_length_64 (s ++ h) (by simp [hlen, hh])
  refine ⟨hsig, _, hb64, ?_⟩
  unfold rowFragment
  simp only [hs, hlen, hsig, hm, hb64]
  have hac : actionCodeStr r.action = "0" := by
    unfold actionCodeStr
    simp [ha1, ha2]
  simp [hac]

/-- Claim C2: for every dequeued row whose secret is exactly 32 bytes and
whose action is `activation` or `password_recovery`, the five fields emitted
are `action_code,email,login,encoded_token,code` with action code 1 for
activation and 2 for password_recovery and the encoded token the URL-safe
unpadded base64 of the 64-byte concatenation secret ++ MAC(input), where the
input is "/activate" ++ secret for activation and "/recover" ++ secret ++
code for password_recovery. The MAC oracle stands for HMAC-SHA-256 under the
process key; its success and 32-byte output, and the 5-character code for
password_recovery (schema: VARCHAR(5), always five digits), are hypotheses. -/
theorem c2_shaped_row_fields (mac : List Nat → Option (List Nat)) (r : Row)
    (s h : List Nat) (hs : r.secret = some s) (hlen : s.length = 32)
    (hh : h.length = 32) (isLast : Bool)
    (hcase : (r.action = "activation" ∧
                mac (strBytes "/activate" ++ s) = some h) ∨
             (r.action = "password_recovery" ∧ r.code.length = 5 ∧
                mac (strBytes "/recover" ++ s ++ strBytes r.code) = some h)) :
    ∃ enc, base64_urlencode 89 (s ++ h) = some enc ∧
      rowFragment mac isLast r =
        (if r.action = "activation" then "1" else "2") ++ "," ++ r.email ++ "," ++
          r.login ++ "," ++ enc ++ "," ++ r.code ++ (if isLast then "" else ",") := by
  have hb64 := base64_urlencode_of_length_64 (s ++ h) (by simp [hlen, hh])
  refine ⟨_, hb64, ?_⟩
  rcases hcase with ⟨hact, hm⟩ | ⟨hact, hcode, hm⟩
  · have hsig : construct_signature_data r.action s r.code =
        strBytes "/activate" ++ s := by
      unfold construct_signature_data
      simp [hact]
    unfold rowFragment
    simp only [hs, hlen, hsig, hm, hb64]
    have hac : actionCodeStr r.action = "1" := by
      unfold actionCodeStr
      simp [hact]
    rw [hac, hact]
    simp
  · have htake : (strBytes r.code).take 5 = strBytes r.code := by
      apply List.take_of_length_le
      have hl : (strBytes r.code).length = r.code.length := by
        unfold strBytes
        rw [List.length_map]
        rfl
      rw [hl, hcode]
    have hsig : construct_signature_data r.action s r.code =
        strBytes "/recover" ++ s ++ strBytes r.code := by
      unfold construct_signature_data
      simp [hact, htake]
    unfold rowFragment
    simp only [hs, hlen, hsig, hm, hb64]
    have hac : actionCodeStr r.action = "2" := by
      unfold actionCodeStr
      simp [hact]
    have hne : r.action ≠ "activation" := by simp [hact]
    rw [hac]
    simp [hne]

/-- Witness for C2 at a concrete activation row. -/
theorem c2_witness :
    ∃ enc, base64_urlencode 89 (List.replicate 32 0 ++ List.replicate 32 0) =
        some enc ∧
      rowFragment macZeros true rowGood =
        (if rowGood.action = "activation" then "1" else "2") ++ "," ++
          rowGood.email ++ "," ++ rowGood.login ++ "," ++ enc ++ "," ++
          rowGood.code ++ (if (true : Bool) then "" else ",") :=
  c2_shaped_row_fields macZeros rowGood (List.replicate 32 0)
    (List.replicate 32 0) rfl (by decide) (by decide) true
    (Or.inl ⟨rfl, rfl⟩)

/-- Claim C10: parse_env_int returns the parsed value verbatim for every
syntactically valid integer within int range, including zero and negative
values (part 3), and returns the default when the variable is unset (part 1),
empty (part 2), out of int range (part 4), or followed by trailing
characters (part 5); consequently (part 6) startup accepts any parsed batch
limit and batch timeout — zero or negative included — without rejection. -/
theorem c10_parse_env_int_verbatim :
    (∀ d : Int, parse_env_int none d = d) ∧
    (∀ d : Int, parse_env_int (some "") d = d) ∧
    (∀ (sign : Bool) (digits : List Char) (d : Int),
        digits ≠ [] → (∀ c ∈ digits, c.isDigit = true) →
        INT_MIN ≤ signedValue sign digits → signedValue sign digits ≤ INT_MAX →
        parse_env_int (some ((if sign then "-" else "") ++ ⟨digits⟩)) d =
          signedValue sign digits) ∧
    (∀ (sign : Bool) (digits : List Char) (d : Int),
        digits ≠ [] → (∀ c ∈ digits, c.isDigit = true) →
        (signedValue sign digits < INT_MIN ∨ INT_MAX < signedValue sign digits) →
        parse_env_int (some ((if sign then "-" else "") ++ ⟨digits⟩)) d = d) ∧
    (∀ (sign : Bool) (digits tail : List Char) (d : Int),
        digits ≠ [] → (∀ c ∈ digits, c.isDigit = true) →
        tail ≠ [] → (∀ c, tail.head? = some c → c.isDigit = false) →
        parse_env_int (some ((if sign then "-" else "") ++ ⟨digits ++ tail⟩)) d = d) ∧
    (∀ (env : Env) (conninfo keyhex : String),
        env.databaseUrl = some conninfo → env.secretKey = some keyhex →
        is_valid_hmac_keyhex keyhex = true → env.hmacInitOK = true →
        ∃ cfg, mainStartup env = .ok cfg ∧
          cfg.batchLimit = parse_env_int env.batchLimitEnv 10 ∧
          cfg.timeoutMs = parse_env_int env.batchTimeoutEnv 5000) := by
  refine ⟨fun d => rfl, fun d => rfl, ?_, ?_, ?_, ?_⟩
  · intro sign digits d hne hd h1 h2
    have := parse_env_int_eval sign digits [] hne hd
      (fun c hc => by simp at hc) d
    rw [List.append_nil] at this
    rw [this, if_pos ⟨h1, h2, rfl⟩]
  · intro sign digits d hne hd hout
    have := parse_env_int_eval sign digits [] hne hd
      (fun c hc => by simp at hc) d
    rw [List.append_nil] at this
    rw [this, if_neg (by rintro ⟨ha, hb, _⟩; rcases hout with h | h <;> omega)]
  · intro sign digits tail d hne hd htail ht
    rw [parse_env_int_eval sign digits tail hne hd ht d,
        if_neg (by rintro ⟨_, _, h⟩; exact htail h)]
  · intro env conninfo keyhex hurl hkey hvalid hinit
    unfold is_valid_hmac_keyhex at hvalid
    rw [Bool.and_eq_true] at hvalid
    have hlen : keyhex.data.length = 64 := of_decide_eq_true hvalid.1
    have hall : ∀ c ∈ keyhex.data, isHexDigitChar c = true :=
      fun c hc => List.all_eq_true.mp hvalid.2 c hc
    obtain ⟨bs, hbs, hbl⟩ := hex_to_bytes_total keyhex.data hall (by omega)
    have hbne : bs.isEmpty = false := by
      cases bs with
      | nil => rw [hlen] at hbl; simp at hbl
      | cons b l => simp
    have hrun : mainStartup env = .ok {
        conninfo := conninfo,
        channelName := env.dbChannelName.getD "token_insert",
        queueName := env.dbQueueName.getD "user_action_queue",
        batchLimit := parse_env_int env.batchLimitEnv 10,
        timeoutMs := parse_env_int env.batchTimeoutEnv 5000 } := by
      unfold mainStartup
      rw [hurl, hkey]
      have hvb : is_valid_hmac_keyhex keyhex = true := by
        unfold is_valid_hmac_keyhex
        rw [Bool.and_eq_true]
        exact hvalid
      simp only [hvb, not_true_eq_false, if_false, hbs, hbne,
        Bool.false_eq_true, hinit, ite_false, ite_true]
    exact ⟨_, hrun, rfl, rfl⟩

/-- Witness for C10 at concrete inputs: the value `-3` is returned verbatim
(zero/negative accepted), `five5` overflows back to the default, and startup
accepts a negative batch limit, configuring batchLimit = -3 and
timeoutMs = 0. -/
theorem c10_witness :
    parse_env_int (some ((if true then "-" else "") ++ ⟨['3']⟩)) 10 =
      signedValue true ['3'] ∧
    (∃ cfg, mainStartup envNegBatchLimit = .ok cfg ∧
      cfg.batchLimit = parse_env_int envNegBatchLimit.batchLimitEnv 10 ∧
      cfg.timeoutMs = parse_env_int envNegBatchLimit.batchTimeoutEnv 5000) :=
  ⟨c10_parse_env_int_verbatim.2.2.1 true ['3'] 10 (by decide) (by decide)
      (by decide) (by decide),
   c10_parse_env_int_verbatim.2.2.2.2.2 envNegBatchLimit "postgres://db"
      (String.mk (List.replicate 64 'a')) rfl rfl (by decide) rfl⟩

/-- Claim C8 (spec-modelled: the collector main revision that reads the
health-check interval is absent from the sources; only the README's
MAILROOM_HEALTHCHECK_INTERVAL documentation and db.h's db_healthcheck
declaration remain): startup rejects the configuration — exiting with a
non-zero status without entering the batching loop — whenever the configured
health-check interval is less than the batch timeout. -/
theorem c8_healthcheck_interval_rejected (env : CollectorEnv)
    (h : parse_env_int env.healthcheckEnv 270000 <
         parse_env_int env.batchTimeoutEnv 5000) :
    collectorStartup env = .error 1 := by
  unfold collectorStartup
  simp only [if_pos h]

/-- Witness for C8: interval 1000 ms against the default 5000 ms timeout. -/
theorem c8_witness :
    collectorStartup { healthcheckEnv := some "1000", batchTimeoutEnv := none } =
      .error 1 :=
  c8_healthcheck_interval_rejected _ (by decide)

/-- Claim C4, counterexample: in the flush state (`ready = 1`), a transient
dequeue failure while `PQstatus` stays CONNECTION_OK leaves the loop in a
state with `ready = 0`, and the next iteration's reconnect condition
(`ready < 0 || PQstatus != CONNECTION_OK`) is false — so the loop does NOT
close and reconnect after this transient dequeue error, refuting the claim
that every transient dequeue error transitions to NEED_CONNECT. -/
theorem c4_counterexample :
    iterate { batchLimit := 10, timeoutMs := 5000 } flushState transientFlushIter =
      .next { running := true, ready := 0, seen := 0, start := 0, cursor := 0,
              batches := [] } ∧
    needConnect { running := true, ready := 0, seen := 0, start := 0,
                  cursor := 0, batches := [] } true = false := by
  exact ⟨by decide, by decide⟩

/-- Claim C4, amended: when a flush is triggered (ready > 0, connection
status OK), a terminal dequeue error (missing result columns, result -2)
makes the process exit with EXIT_FAILURE, while a transient dequeue error
(failed query execution, result -1) merely resets the counter and dispatch
flag: the batch is skipped, the cursor is untouched, and the loop reconnects
on the following iteration exactly when the connection status is no longer
CONNECTION_OK — not because of the error itself. -/
theorem c4_flush_error_classification (p : Params) (s : LoopState) (it : Iter)
    (hready : s.ready > 0) (hstatus : it.statusOK = true) :
    (it.flushOutcome = .terminal → iterate p s it = .exit 1) ∧
    (it.flushOutcome = .transient →
      ∃ s1, flushPhase s it = .next s1 ∧ s1.ready = 0 ∧ s1.seen = 0 ∧
        s1.cursor = s.cursor ∧ s1.batches = s.batches ∧
        ∀ ok : Bool, needConnect s1 ok = !ok) := by
  have hnc : needConnect s it.statusOK = false := by
    unfold needConnect
    rw [hstatus]
    simp only [Bool.not_true, Bool.or_false, decide_eq_false_iff_not]
    omega
  constructor
  · intro hflush
    have hfl : flushPhase s it = .exit 1 := by
      unfold flushPhase
      rw [if_pos hready, hflush]
      dsimp only [dequeueStep]
      norm_num
    unfold iterate
    rw [hnc]
    simp only [Bool.false_eq_true, if_false, hfl]
  · intro hflush
    have hfl : flushPhase s it =
        .next (⟨s.running, 0, 0, s.start, s.cursor, s.batches ++ []⟩ : LoopState) := by
      unfold flushPhase
      rw [if_pos hready, hflush]
      dsimp only [dequeueStep]
      norm_num
    refine ⟨_, hfl, rfl, rfl, rfl, by simp, ?_⟩
    intro ok
    unfold needConnect
    simp

/-- Witness for C4's amended theorem: a concrete flush state with a terminal
outcome exits with status 1. -/
theorem c4_witness :
    iterate { batchLimit := 10, timeoutMs := 5000 } flushState
      { quietIter with flushOutcome := .terminal } = .exit 1 :=
  (c4_flush_error_classification { batchLimit := 10, timeoutMs := 5000 }
    flushState { quietIter with flushOutcome := .terminal }
    (by decide) rfl).1 rfl

/-- Claim C5, counterexample: a run in which a SIGINT/SIGTERM signal clears
the running flag and the loop exits cleanly returns EXIT_FAILURE (1), not 0:
main's final statement is `return exit_code(conn, EXIT_FAILURE)`. The claim's
"exit status zero if and only if clean signal shutdown" is therefore false —
this is a clean signal shutdown with a non-zero status. -/
theorem c5_counterexample :
    mainLoop { batchLimit := 10, timeoutMs := 5000 } idleState [signalIter] =
      .exit 1 ∧ (1 : Nat) ≠ 0 :=
  ⟨by decide, by decide⟩

/-- Claim C5, amended: the exit status is non-zero (EXIT_FAILURE = 1) on
every terminal failure — startup rejection (missing or invalid key, missing
database URL, hmac_init failure), failed connect, terminal dequeue error,
select failure — and it is also 1 on clean signal shutdown: every exit path
of the process carries status 1, so the process never exits zero. -/
theorem c5_exit_status_nonzero :
    (∀ (env : Env) (c : Nat), mainStartup env = .error c → c = 1) ∧
    (∀ (p : Params) (s : LoopState) (its : List Iter) (c : Nat),
        mainLoop p s its = .exit c → c = 1) := by
  constructor
  · intro env c h
    unfold mainStartup at h
    repeat' split at h
    all_goals try dsimp only at h
    all_goals repeat' split at h
    all_goals first | (cases h; rfl) | (cases h)
  · intro p s its
    induction its generalizing s with
    | nil =>
        intro c h
        unfold mainLoop at h
        split_ifs at h
        all_goals first | (cases h; rfl) | (cases h)
    | cons it rest ih =>
        intro c h
        unfold mainLoop at h
        dsimp only at h
        split_ifs at h
        all_goals try (cases h; rfl)
        all_goals split at h
        all_goals first
          | (cases h; rename_i heq; exact iterate_exit_code heq)
          | (exact ih _ _ h)
          | (cases h)

/-- Witness for C5 at concrete inputs: the signal-shutdown run exits with
code 1, and the theorem instantiated at that run confirms every exit of that
shape carries 1. -/
theorem c5_witness :
    mainLoop { batchLimit := 10, timeoutMs := 5000 } idleState [signalIter] =
      .exit 1 ∧
    (∀ c, mainLoop { batchLimit := 10, timeoutMs := 5000 } idleState
        [signalIter] = .exit c → c = 1) :=
  ⟨by decide,
   fun c h => c5_exit_status_nonzero.2 { batchLimit := 10, timeoutMs := 5000 }
     idleState [signalIter] c h⟩

/-- Claim C6, counterexample: with batch_limit = 2, an iteration that drains
three pending notifications sets seen = 3 and flushes with limit = seen = 3;
against a table with three eligible tokens the flush emits a single batch of
3 rows — more rows than batch_limit. The batch-size bound of the claim is
violated because the notification counter, not batch_limit, is passed as the
dequeue limit, and the counter can exceed batch_limit when several
notifications arrive between socket waits. -/
theorem c6_counterexample :
    mainLoop { batchLimit := 2, timeoutMs := 5000 } idleState
      [threeNotifsIter, threeRowsIter] = .more c6FinalState ∧
    ∃ b ∈ c6FinalState.batches,
      ({ batchLimit := 2, timeoutMs := 5000 } : Params).batchLimit.toNat <
        b.length := by
  constructor
  · decide
  · exact ⟨[(tokAct 1, acctProv), (tokAct 2, acctProv), (tokAct 3, acctProv)],
      by decide, by decide⟩

/-- Claim C6, amended: the dequeue query never returns more rows than the
limit parameter it is given; consequently every batch emitted by the
reconnect/startup drain has at most batch_limit rows, and every batch
emitted by a flush has at most `seen` rows — the notification counter at
that flush, which is the limit the flush passes and which may exceed
batch_limit. -/
theorem c6_batch_size_bounds :
    (∀ (tokens : List Token) (accounts : List Account) (now : Int)
        (lastSeq limit : Nat),
        (tokenData tokens accounts now lastSeq limit).length ≤ limit) ∧
    (∀ (p : Params) (s : LoopState) (it : Iter) (s' : LoopState),
        (iterate p s it = .next s' ∨ iterate p s it = .stuck s') →
        ∀ b ∈ s'.batches.drop s.batches.length,
          b.length ≤ max p.batchLimit.toNat s.seen) := by
  constructor
  · exact tokenData_length_le
  · intro p s it s' hstep b hb
    unfold iterate at hstep
    by_cases hnc : needConnect s it.statusOK = true
    · rw [if_pos hnc] at hstep
      by_cases hco : it.connectOK = true
      · rw [if_neg (by simp [hco])] at hstep
        have hdb := drainLoop_batches it.tokens it.accounts it.now p.batchLimit
          it.drainOutcomes s.cursor [] (by intro b hb; cases hb)
        cases hdr : drainLoop it.tokens it.accounts it.now p.batchLimit
            it.drainOutcomes s.cursor [] with
        | done c' bs res =>
            rw [hdr] at hstep
            dsimp only at hstep
            have hbs := hdb.1 c' bs res hdr
            rcases hstep with hstep | hstep <;> split_ifs at hstep <;>
              cases hstep <;>
              simp only [List.drop_left] at hb <;>
              exact le_max_of_le_left (hbs b hb)
        | stuck c' bs =>
            rw [hdr] at hstep
            have hbs := hdb.2 c' bs hdr
            rcases hstep with hstep | hstep <;> cases hstep
            simp only [List.drop_left] at hb
            exact le_max_of_le_left (hbs b hb)
      · rw [if_pos (by simp [hco])] at hstep
        rcases hstep with hstep | hstep <;> cases hstep
    · rw [if_neg hnc] at hstep
      rcases hfl : flushPhase s it with s1 | cf | s1 <;> rw [hfl] at hstep <;>
        dsimp only at hstep
      · have hfb := flushPhase_next_batches hfl
        have hs1 : s'.batches = s1.batches := by
          by_cases hbl : ((intakePhase s1 it).seen : Int) ≥ p.batchLimit
          · rw [if_pos hbl] at hstep
            rcases hstep with hstep | hstep <;> cases hstep
            exact intakePhase_batches s1 it
          · rw [if_neg hbl] at hstep
            rcases hstep with hstep | hstep
            · rw [selectPhase_next_batches hstep]
              exact intakePhase_batches s1 it
            · exact absurd hstep (by
                intro hst
                exact selectPhase_no_stuck hst)
        rw [hs1] at hb
        exact le_max_of_le_right (hfb b hb)
      · rcases hstep with hstep | hstep <;> cases hstep
      · exact (flushPhase_no_stuck hfl).elim

/-- Witness for C6's amended theorem: a concrete flush of the counterexample
shape still respects the per-flush bound max batch_limit seen = 3. -/
theorem c6_witness :
    ∀ b ∈ (c6FinalState.batches.drop
        ({ running := true, ready := 1, seen := 3, start := 0, cursor := 0,
           batches := [] } : LoopState).batches.length),
      b.length ≤ max (({ batchLimit := 2, timeoutMs := 5000 } : Params)).batchLimit.toNat
        ({ running := true, ready := 1, seen := 3, start := 0, cursor := 0,
           batches := [] } : LoopState).seen :=
  c6_batch_size_bounds.2 { batchLimit := 2, timeoutMs := 5000 }
    { running := true, ready := 1, seen := 3, start := 0, cursor := 0,
      batches := [] }
    threeRowsIter c6FinalState (Or.inl (by decide))

/-- Witness for C7's amended theorem at a concrete unknown-action row. -/
theorem c7_witness :
    construct_signature_data rowOddAction.action (List.replicate 32 7)
        rowOddAction.code = [] ∧
    ∃ enc, base64_urlencode 89 (List.replicate 32 7 ++ List.replicate 32 0) =
        some enc ∧
      rowFragment macZeros false rowOddAction =
        "0" ++ "," ++ rowOddAction.email ++ "," ++ rowOddAction.login ++ "," ++
          enc ++ "," ++ rowOddAction.code ++ (if (false : Bool) then "" else ",") :=
  c7_unknown_action_still_shaped macZeros rowOddAction (List.replicate 32 7)
    (List.replicate 32 0) rfl (by decide) (by decide) (by decide) rfl
    (by decide) false

end Mailroom
